import Mathlib

/-!
Verification of the QuartzNet training-orchestration script
(`nemo_asr_app/tools/NeMo/quartznet.py`) against its natural-language
specification.

The script is modelled by a shallow embedding:
* Python values loaded from the YAML config are modelled by the tree type
  `PVal` (dicts as association lists with Python truthiness).
* The parsed argparse namespace is the structure `Args`; `parse_args`
  performs the mutual-exclusion check of lines 75-78.
* `create_all_dags` (lines 80-233) is modelled in two stages: the fallible
  configuration extraction `parseCfg` (every subscript, `**`-splat and
  division that can raise) followed by the pure assembly `assembleDags`
  describing the constructed modules, DAGs and callbacks.
* `main` (lines 236-290) is `mainModel`; its shell side effect
  (`os.system("wandb login ...")`) is returned as an explicit command trace.
* Python's `int(a / b)` (true division then truncation) is modelled by
  exact rational division `pyDiv` followed by truncation `pyTrunc`.
* For the frame-effect claim about `copy.deepcopy` (lines 97-122) the
  aliasing of Python dicts is made explicit by a small heap model (`Heap`,
  `deepcopyVal`, `overlayTrain`).
Errors (`ValueError`, `KeyError`, `TypeError`, `IndexError`,
`ZeroDivisionError`) are modelled by `Except Err` with a message string.
-/

deriving instance DecidableEq for Except

namespace QuartzNet

/-- Error values raised by the modelled Python code (exception class and
message rendered as a string). -/
abbrev Err := String

/-- A Python value as produced by `yaml.load` (safe loader): scalars,
lists and string-keyed dictionaries.  `pnone` is Python `None`. -/
inductive PVal where
  | pnone : PVal
  | pbool : Bool → PVal
  | pint : Int → PVal
  | pstr : String → PVal
  | plist : List PVal → PVal
  | pdict : List (String × PVal) → PVal

/-- Python truthiness (`bool(v)`): `None`, `False`, `0`, `""`, `[]` and
`{}` are falsy, everything else is truthy. -/
def PVal.truthy : PVal → Bool
  | .pnone => false
  | .pbool b => b
  | .pint n => !(n == 0)
  | .pstr s => !(s == "")
  | .plist l => !l.isEmpty
  | .pdict d => !d.isEmpty

/-- Association-list lookup, the model of `d[k]` on a dict body
(first entry whose key matches). -/
def dlookup (d : List (String × PVal)) (k : String) : Option PVal :=
  (d.find? (fun kv => kv.1 == k)).map (fun kv => kv.2)

/-- Model of `d[k] = v` on a dict body: overwrite the entry in place when
the key is present, otherwise append it. -/
def dset : List (String × PVal) → String → PVal → List (String × PVal)
  | [], k, v => [(k, v)]
  | kv :: rest, k, v =>
    if kv.1 == k then (k, v) :: rest else kv :: dset rest k v

/-- Model of Python `d.update(e)` for dicts: set every entry of `e` in
`d`, in order. -/
def dupdate (d e : List (String × PVal)) : List (String × PVal) :=
  e.foldl (fun a kv => dset a kv.1 kv.2) d

/-- Model of Python `del d[k]`: raises `KeyError` when the key is absent,
otherwise removes it. -/
def ddelE (d : List (String × PVal)) (k : String) :
    Except Err (List (String × PVal)) :=
  if (d.find? (fun kv => kv.1 == k)).isSome then
    Except.ok (d.filter (fun kv => !(kv.1 == k)))
  else
    Except.error ("KeyError: " ++ k)

/-- Model of `v[k]` (subscript) on a `PVal`: `KeyError` when the key is
missing, `TypeError` when the value is not a dict. -/
def getItem (v : PVal) (k : String) : Except Err PVal :=
  match v with
  | .pdict d =>
    match dlookup d k with
    | some x => Except.ok x
    | none => Except.error ("KeyError: " ++ k)
  | _ => Except.error "TypeError: object is not subscriptable"

/-- Model of `v.get(k, None)` on a dict (used for the optional
`SpectrogramAugmentation` key); yields `none` for Python `None`. -/
def pyGet (v : PVal) (k : String) : Option PVal :=
  match v with
  | .pdict d => dlookup d k
  | _ => Option.none

/-- Extract a dict body, as required by a `**`-splat or `dict.update`
argument; `TypeError` otherwise. -/
def asDict (v : PVal) : Except Err (List (String × PVal)) :=
  match v with
  | .pdict d => Except.ok d
  | _ => Except.error "TypeError: argument must be a mapping"

/-- Extract a list, as required by `len(...)` and list indexing;
`TypeError` otherwise. -/
def asList (v : PVal) : Except Err (List PVal) :=
  match v with
  | .plist l => Except.ok l
  | _ => Except.error "TypeError: object is not a list"

/-- Model of Python list indexing `l[-1]`: the last element, or
`IndexError` on an empty list. -/
def pyLast (l : List PVal) : Except Err PVal :=
  match l.getLast? with
  | some v => Except.ok v
  | none => Except.error "IndexError: list index out of range"

/-- Truthiness of an optional CLI string value (argparse stores `None`
when the flag is absent): `None` and `""` are falsy. -/
def optTruthy : Option String → Bool
  | some s => !(s == "")
  | Option.none => false

/-- The exact value of a Python true-division result, kept as the
unreduced fraction `fnum / fden`.  (The binary64 rounding of CPython's
float division is idealised as exact division.) -/
structure PyFloat where
  fnum : Int
  fden : Int
deriving DecidableEq

/-- Python's true division `a / b` on non-negative integers; raises
`ZeroDivisionError` on a zero divisor. -/
def pyDiv (a b : Nat) : Except Err PyFloat :=
  if b = 0 then Except.error "ZeroDivisionError: division by zero"
  else Except.ok ⟨(a : Int), (b : Int)⟩

/-- Python `int(q)`: truncation toward zero of the exact quotient
(`Int.tdiv` is division truncating toward zero). -/
def pyTrunc (q : PyFloat) : Int :=
  Int.tdiv q.fnum q.fden

/-- The argparse namespace after a successful `parser.parse_args()`.
`num_epochs` and `model_config` are `required=True`, hence plain fields;
flags with `default=None` are `Option`-typed; the remaining defaults are
the `set_defaults`/`add_argument` defaults of lines 35-73 (framework
flags that the script reads, such as `train_dataset`, `eval_datasets`,
`iter_per_step`, `num_gpus` and `max_steps`, are inherited from
`NemoArgParser`). -/
structure Args where
  num_epochs : Int
  model_config : String
  max_steps : Option Int := Option.none
  checkpoint_dir : Option String := Option.none
  load_dir : Option String := Option.none
  wandb_key : Option String := Option.none
  exp_name : String := "QuartzNet"
  project : String := "quartznet-single-node"
  batch_size : Nat := 32
  eval_batch_size : Nat := 64
  train_dataset : String := ""
  eval_datasets : List String := []
  iter_per_step : Nat := 1
  num_gpus : Nat := 1
  update_freq : Int := 50
  eval_freq : Int := 1000
  pretrained_encoder : String := ""
  pretrained_decoder : String := ""
  warmup_steps : Int := 1000
  warmupFraction : Option PyFloat := Option.none

/-- Model of `parse_args` lines 75-78: after argparse accepts the
argument vector, raise `ValueError` when `max_steps` was supplied
(it is mutually exclusive with the required `num_epochs`), otherwise
return the namespace unchanged. -/
def parse_args (a : Args) : Except Err Args :=
  if a.max_steps ≠ Option.none then
    Except.error "ValueError: QuartzNet uses num_epochs instead of max_steps"
  else
    Except.ok a

/-- Lines 97-100: `train_dl_params = copy.deepcopy(qp["AudioToTextDataLayer"])`
(a value copy in this tree model), `.update(qp["AudioToTextDataLayer"]["train"])`,
then `del train_dl_params["train"]` and `del train_dl_params["eval"]`. -/
def mkTrainDlParams (adl : PVal) : Except Err (List (String × PVal)) := do
  let base ← asDict adl
  let sub ← getItem adl "train"
  let subD ← asDict sub
  let m1 ← ddelE (dupdate base subD) "train"
  ddelE m1 "eval"

/-- Lines 119-122: the symmetric overlay of the `eval` sub-mapping onto a
fresh copy of the shared `AudioToTextDataLayer` dict. -/
def mkEvalDlParams (adl : PVal) : Except Err (List (String × PVal)) := do
  let base ← asDict adl
  let sub ← getItem adl "eval"
  let subD ← asDict sub
  let m1 ← ddelE (dupdate base subD) "train"
  ddelE m1 "eval"

/-- Lines 167-169: `spectr_augment_config = quartz_params.get('SpectrogramAugmentation', None)`
followed by `if spectr_augment_config: ... SpectrogramAugmentation(**spectr_augment_config)`.
Returns the kwargs of the constructed augmentation module, or `none` when
the value is absent or falsy. -/
def mkSpectrAug (cfg : PVal) : Except Err (Option (List (String × PVal))) :=
  match pyGet cfg "SpectrogramAugmentation" with
  | some v =>
    if v.truthy then (asDict v).map (fun d => some d)
    else Except.ok Option.none
  | Option.none => Except.ok Option.none

/-- The values `create_all_dags` extracts from the loaded config (and the
two divisions of lines 94 and 113), before any module is described. -/
structure CfgParts where
  vocab : PVal
  sample_rate : PVal
  cpu_per_traindl : Int
  train_dl_params : List (String × PVal)
  eval_dl_params : List (String × PVal)
  steps_per_epoch : Int
  preprocKwargs : List (String × PVal)
  features : PVal
  encoderKwargs : List (String × PVal)
  filters : PVal
  vocabLen : Nat
  spectrAug : Option (List (String × PVal))

/-- The fallible part of `create_all_dags` (lines 84-169), in source
order: every config subscript, `**`-splat, list index and division that
can raise.  `total_cpus` is `os.cpu_count()`, `world_size` is
`neural_factory.world_size` and `trainLen` is `len(data_layer_train)`
(the size of the training manifest). -/
def parseCfg (cfg : PVal) (total_cpus world_size batch_size iter_per_step
    num_gpus trainLen : Nat) : Except Err CfgParts := do
  let vocab ← getItem cfg "labels"
  let sample_rate ← getItem cfg "sample_rate"
  let q1 ← pyDiv total_cpus world_size
  let adl ← getItem cfg "AudioToTextDataLayer"
  let tdp ← mkTrainDlParams adl
  let q2 ← pyDiv trainLen (batch_size * iter_per_step * num_gpus)
  let edp ← mkEvalDlParams adl
  let preK ← getItem cfg "AudioToMelSpectrogramPreprocessor"
  let preD ← asDict preK
  let feat ← getItem preK "features"
  let je ← getItem cfg "JasperEncoder"
  let jeD ← asDict je
  let jas ← getItem je "jasper"
  let jasL ← asList jas
  let lastE ← pyLast jasL
  let filt ← getItem lastE "filters"
  let vocabL ← asList vocab
  let sp ← mkSpectrAug cfg
  Except.ok
    { vocab := vocab
      sample_rate := sample_rate
      cpu_per_traindl := max (pyTrunc q1) 1
      train_dl_params := tdp
      eval_dl_params := edp
      steps_per_epoch := pyTrunc q2
      preprocKwargs := preD
      features := feat
      encoderKwargs := jeD
      filters := filt
      vocabLen := vocabL.length
      spectrAug := sp }

/-- The keyword arguments with which an `AudioToTextDataLayer` is
constructed (lines 103-110 and 127-134): the explicit keywords plus the
`**`-splat of the merged parameter dict. -/
structure DataLayerArgs where
  manifest_filepath : String
  sample_rate : PVal
  labels : PVal
  batch_size : Nat
  num_workers : Int
  extra : List (String × PVal)

/-- A module node of the computation graph the script assembles. -/
inductive DagNode where
  | dataLayer
  | preprocessor
  | spectrAugment
  | encoder
  | decoder
  | greedyDecoder
  | ctcLoss
deriving DecidableEq

/-- A callback registered by `create_all_dags`, with the constructor
arguments the script passes. -/
inductive Callback where
  | lossLogger (step_freq : Int)
  | checkpoint (folder : Option String) (load_from_folder : Option String)
      (step_freq : Int)
  | wandb (wandb_name : String) (wandb_project : String) (update_freq : Int)
  | evaluator (tag : String) (eval_step : Int)
deriving DecidableEq

/-- Whether a callback is the checkpoint callback. -/
def Callback.isCheckpoint : Callback → Bool
  | .checkpoint _ _ _ => true
  | _ => false

/-- Whether a callback is an evaluator callback. -/
def Callback.isEvaluator : Callback → Bool
  | .evaluator _ _ => true
  | _ => false

/-- Split a character list at every occurrence of a separator (the model
of `str.split(sep)`, written structurally so that concrete values
evaluate). -/
def csplit (sep : Char) (l : List Char) : List (List Char) :=
  l.foldr
    (fun c acc =>
      if c == sep then [] :: acc else (c :: acc.headD []) :: acc.tail)
    [[]]

/-- `os.path.basename`: the component after the last path separator. -/
def pyBasename (s : String) : String :=
  String.mk ((csplit '/' s.data).getLastD [])

/-- Line 221: `os.path.basename(args.eval_datasets[i]).split(".")[0]`. -/
def tagOf (s : String) : String :=
  String.mk ((csplit '.' (pyBasename s).data).headD [])

/-- Lines 186-231: the callback list, accumulated exactly as the source
does — start with the loss logger, append the checkpoint callback under
`if args.checkpoint_dir or args.load_dir:` (Python truthiness), append
the wandb callback, then one evaluator per element of
`data_layers_eval`, whose tag indexes `args.eval_datasets[i]`. -/
def buildCallbacks (args : Args) (dataLayersEval : List DataLayerArgs) :
    List Callback :=
  let cs := [Callback.lossLogger args.update_freq]
  let cs :=
    if optTruthy args.checkpoint_dir || optTruthy args.load_dir then
      cs ++ [Callback.checkpoint args.checkpoint_dir args.load_dir
        args.eval_freq]
    else cs
  let cs := cs ++ [Callback.wandb args.exp_name args.project args.update_freq]
  (dataLayersEval.enum).foldl
    (fun acc p =>
      acc ++ [Callback.evaluator (tagOf (args.eval_datasets.getD p.1 ""))
        args.eval_freq])
    cs

/-- The eval DAG of lines 212-220: data layer, preprocessor, encoder,
decoder, greedy decoder, CTC loss — never an augmentation node. -/
def evalChain : List DagNode :=
  [DagNode.dataLayer, DagNode.preprocessor, DagNode.encoder,
   DagNode.decoder, DagNode.greedyDecoder, DagNode.ctcLoss]

/-- Everything `create_all_dags` builds: the data-layer constructions,
the shared modules with the constructor arguments the source passes, the
train/eval DAG shapes, the callbacks, and `steps_per_epoch`. -/
structure DagsResult where
  dataLayerTrain : DataLayerArgs
  dataLayersEval : List DataLayerArgs
  preprocSampleRate : PVal
  preprocKwargs : List (String × PVal)
  encoderFeatIn : PVal
  encoderKwargs : List (String × PVal)
  restoredEncoder : Bool
  restoredDecoder : Bool
  decoderFeatIn : PVal
  decoderNumClasses : Nat
  ctcNumClasses : Nat
  spectrAug : Option (List (String × PVal))
  trainDag : List DagNode
  evalDags : List (List DagNode)
  callbacks : List Callback
  steps_per_epoch : Int
  warnedNoEval : Bool

/-- The infallible remainder of `create_all_dags` (lines 103-233):
given the extracted config parts, describe the constructed modules, the
train DAG (augmentation inserted between preprocessor and encoder only
when a truthy `SpectrogramAugmentation` config was found), one eval DAG
and data layer per element of `args.eval_datasets` (with the
no-eval-datasets warning otherwise), and the callbacks. -/
def assembleDags (args : Args) (p : CfgParts) : DagsResult :=
  let dataLayerTrain : DataLayerArgs :=
    { manifest_filepath := args.train_dataset
      sample_rate := p.sample_rate
      labels := p.vocab
      batch_size := args.batch_size
      num_workers := p.cpu_per_traindl
      extra := p.train_dl_params }
  let dataLayersEval : List DataLayerArgs :=
    if args.eval_datasets.isEmpty then []
    else
      args.eval_datasets.map (fun ds =>
        { manifest_filepath := ds
          sample_rate := p.sample_rate
          labels := p.vocab
          batch_size := args.eval_batch_size
          num_workers := p.cpu_per_traindl
          extra := p.eval_dl_params })
  let aug := p.spectrAug.isSome
  { dataLayerTrain := dataLayerTrain
    dataLayersEval := dataLayersEval
    preprocSampleRate := p.sample_rate
    preprocKwargs := p.preprocKwargs
    encoderFeatIn := p.features
    encoderKwargs := p.encoderKwargs
    restoredEncoder := !(args.pretrained_encoder == "")
    restoredDecoder := !(args.pretrained_decoder == "")
    decoderFeatIn := p.filters
    decoderNumClasses := p.vocabLen
    ctcNumClasses := p.vocabLen
    spectrAug := p.spectrAug
    trainDag :=
      [DagNode.dataLayer, DagNode.preprocessor]
        ++ (if aug then [DagNode.spectrAugment] else [])
        ++ [DagNode.encoder, DagNode.decoder, DagNode.greedyDecoder,
            DagNode.ctcLoss]
    evalDags := dataLayersEval.map (fun _ => evalChain)
    callbacks := buildCallbacks args dataLayersEval
    steps_per_epoch := p.steps_per_epoch
    warnedNoEval := args.eval_datasets.isEmpty }

/-- `create_all_dags` (lines 80-233): extract the config values, then
assemble modules, DAGs and callbacks. -/
def createAllDags (args : Args) (cfg : PVal)
    (total_cpus world_size trainLen : Nat) : Except Err DagsResult :=
  (parseCfg cfg total_cpus world_size args.batch_size args.iter_per_step
    args.num_gpus trainLen).map (assembleDags args)

/-- Lines 256-257 of `main`: `args.num_gpus = neural_factory.world_size`
and `args.checkpoint_dir = neural_factory.checkpoint_dir`. -/
def argsAfterFactory (a : Args) (world_size : Nat)
    (factoryCkpt : Option String) : Args :=
  { a with num_gpus := world_size, checkpoint_dir := factoryCkpt }

/-- What `main` hands to `neural_factory.train`: in both warmup branches
the learning-rate policy receives `total_steps = args.num_epochs *
steps_per_epoch` (lines 266-274). -/
structure MainTrace where
  stepsPerEpoch : Int
  lrTotalSteps : Int
  optimizerEpochs : Int
  callbacks : List Callback
  trainDag : List DagNode

/-- `main` (lines 236-290): parse the arguments, run `wandb login <key>`
under `if args.wandb_key:` (the returned `List String` is the trace of
`os.system` shell invocations), instantiate the factory (modelled by the
`world_size`/`factoryCkpt` parameters and `argsAfterFactory`), build the
DAGs, and call the training loop with the learning-rate policy's total
step count.  Any error is returned unchanged. -/
def mainModel (a : Args) (cfg : PVal) (total_cpus world_size : Nat)
    (factoryCkpt : Option String) (trainLen : Nat) :
    List String × Except Err MainTrace :=
  match parse_args a with
  | Except.error e => ([], Except.error e)
  | Except.ok args =>
    let shellCmds :=
      if optTruthy args.wandb_key then
        ["wandb login " ++ args.wandb_key.getD ""]
      else []
    let args := argsAfterFactory args world_size factoryCkpt
    match createAllDags args cfg total_cpus world_size trainLen with
    | Except.error e => (shellCmds, Except.error e)
    | Except.ok r =>
      (shellCmds,
        Except.ok
          { stepsPerEpoch := r.steps_per_epoch
            lrTotalSteps := args.num_epochs * r.steps_per_epoch
            optimizerEpochs := args.num_epochs
            callbacks := r.callbacks
            trainDag := r.trainDag })

/-! ### Heap model of lines 97-122

To settle the frame-effect claim about `copy.deepcopy`, Python's dict
aliasing is made explicit: dict objects live in a heap of cells, dict
values inside a cell are either scalars or references to other cells,
and `copy.deepcopy` allocates fresh cells.  `train_dl_params.update(...)`
and `del train_dl_params[...]` mutate only the cell of the copy. -/

/-- A Python value inside a heap cell: an opaque scalar or a reference
to a dict object. -/
inductive HVal where
  | hprim : String → HVal
  | href : Nat → HVal
deriving DecidableEq

/-- A dict object's body. -/
abbrev HDict := List (String × HVal)

/-- The heap: dict objects addressed by their index. -/
structure Heap where
  cells : List HDict
deriving DecidableEq

/-- Dereference an address. -/
def Heap.get? (h : Heap) (a : Nat) : Option HDict :=
  h.cells[a]?

/-- Overwrite the cell at an address (the model of mutating a dict
object in place). -/
def Heap.setCell (h : Heap) (a : Nat) (d : HDict) : Heap :=
  ⟨h.cells.set a d⟩

/-- Allocate a fresh cell, returning its address. -/
def Heap.alloc (h : Heap) (d : HDict) : Nat × Heap :=
  (h.cells.length, ⟨h.cells ++ [d]⟩)

/-- Closedness: every reference stored in the heap points at an
existing cell (Boolean so that concrete heaps can be checked by
evaluation). -/
def Heap.closed (h : Heap) : Bool :=
  h.cells.all (fun d =>
    d.all (fun kv =>
      match kv.2 with
      | .href a => a < h.cells.length
      | _ => true))

/-- Association-list lookup on a dict body. -/
def hlookup (d : HDict) (k : String) : Option HVal :=
  (d.find? (fun kv => kv.1 == k)).map (fun kv => kv.2)

/-- `d[k] = v` on a dict body. -/
def hset : HDict → String → HVal → HDict
  | [], k, v => [(k, v)]
  | kv :: rest, k, v =>
    if kv.1 == k then (k, v) :: rest else kv :: hset rest k v

/-- `d.update(e)` on dict bodies. -/
def hupdate (d e : HDict) : HDict :=
  e.foldl (fun a kv => hset a kv.1 kv.2) d

/-- `del d[k]`: `none` when the key is absent (`KeyError`). -/
def hdel (d : HDict) (k : String) : Option HDict :=
  if (d.find? (fun kv => kv.1 == k)).isSome then
    some (d.filter (fun kv => !(kv.1 == k)))
  else
    Option.none

/-- The address a dict-valued expression refers to (`update`, `del` and
`deepcopy` of a non-dict are out of scope here). -/
def asRef : HVal → Option Nat
  | .href a => some a
  | _ => Option.none

/-- Read `heap[r][k]`. -/
def readKey (h : Heap) (r : Nat) (k : String) : Option HVal :=
  (h.get? r).bind (fun d => hlookup d k)

/-- Deep-copy every value of a dict body with the supplied value-copier
(threading the heap left to right). -/
def deepcopyEntriesF (f : Heap → HVal → Option (HVal × Heap)) :
    Heap → HDict → Option (HDict × Heap)
  | h, [] => some ([], h)
  | h, (k, v) :: rest =>
    (f h v).bind fun p =>
      (deepcopyEntriesF f p.2 rest).bind fun q =>
        some ((k, p.1) :: q.1, q.2)

/-- `copy.deepcopy` of a value, fuel-indexed (the fuel bounds the
nesting depth; `yaml.load` with the safe loader only produces finite
trees): scalars are returned as-is, a dict reference is dereferenced,
its values deep-copied, and the copied body allocated in a fresh cell. -/
def deepcopyVal : Nat → Heap → HVal → Option (HVal × Heap)
  | _, h, .hprim s => some (.hprim s, h)
  | 0, _, .href _ => Option.none
  | fuel + 1, h, .href a =>
    (h.get? a).bind fun d =>
      (deepcopyEntriesF (deepcopyVal fuel) h d).bind fun p =>
        some (.href (Heap.alloc p.2 p.1).1, (Heap.alloc p.2 p.1).2)

/-- Lines 97-100 on the heap, with `quartz_params` at address `qp`:
`train_dl_params = copy.deepcopy(quartz_params["AudioToTextDataLayer"])`,
`train_dl_params.update(quartz_params["AudioToTextDataLayer"]["train"])`
(note: the update's argument is read from the *original* dict), then
`del train_dl_params["train"]` and `del train_dl_params["eval"]`.
Returns the heap after the overlay and the address of
`train_dl_params`. -/
def overlayTrain (fuel : Nat) (h : Heap) (qp : Nat) :
    Option (Heap × Nat) :=
  (h.get? qp).bind fun qd =>
  (hlookup qd "AudioToTextDataLayer").bind fun adlV =>
  (deepcopyVal fuel h adlV).bind fun c =>
  (asRef c.1).bind fun tref =>
  (asRef adlV).bind fun adlRef =>
  (c.2.get? adlRef).bind fun adlD =>
  (hlookup adlD "train").bind fun trV =>
  (asRef trV).bind fun trRef =>
  (c.2.get? trRef).bind fun trD =>
  (c.2.get? tref).bind fun tD =>
  let h2 := c.2.setCell tref (hupdate tD trD)
  (h2.get? tref).bind fun tD2 =>
  (hdel tD2 "train").bind fun tD3 =>
  let h3 := h2.setCell tref tD3
  (h3.get? tref).bind fun tD4 =>
  (hdel tD4 "eval").bind fun tD5 =>
  some (h3.setCell tref tD5, tref)

/-! ### Concrete fixtures (a small but complete model config, argument
namespaces, and heaps) used to instantiate the claims -/

/-- The `train` sub-mapping of the fixture config. -/
def tsEx : List (String × PVal) := [("shuffle", PVal.pbool false)]

/-- The `eval` sub-mapping of the fixture config. -/
def esEx : List (String × PVal) := [("max_duration", PVal.pint 15)]

/-- The shared `AudioToTextDataLayer` mapping of the fixture config. -/
def baseEx : List (String × PVal) :=
  [("shuffle", PVal.pbool true), ("train", PVal.pdict tsEx),
   ("eval", PVal.pdict esEx)]

/-- The merged train data-layer params of the fixture config. -/
def tpExLit : List (String × PVal) := [("shuffle", PVal.pbool false)]

/-- The merged eval data-layer params of the fixture config. -/
def epExLit : List (String × PVal) :=
  [("shuffle", PVal.pbool true), ("max_duration", PVal.pint 15)]

/-- The `jasper` block list of the fixture config. -/
def jasperEx : PVal :=
  PVal.plist [PVal.pdict [("filters", PVal.pint 256)],
    PVal.pdict [("filters", PVal.pint 1024)]]

/-- The entries of the fixture model config. -/
def cfgExD : List (String × PVal) :=
  [("labels", PVal.plist [PVal.pstr "a", PVal.pstr "b", PVal.pstr "c"]),
   ("sample_rate", PVal.pint 16000),
   ("AudioToTextDataLayer", PVal.pdict baseEx),
   ("AudioToMelSpectrogramPreprocessor",
     PVal.pdict [("features", PVal.pint 64)]),
   ("JasperEncoder", PVal.pdict [("jasper", jasperEx)])]

/-- The fixture model config (no `SpectrogramAugmentation`). -/
def cfgEx : PVal := PVal.pdict cfgExD

/-- The fixture config with a present but empty (hence falsy)
`SpectrogramAugmentation` mapping. -/
def cfgAug0D : List (String × PVal) :=
  cfgExD ++ [("SpectrogramAugmentation", PVal.pdict [])]

/-- The dict value of `cfgAug0D`. -/
def cfgAug0 : PVal := PVal.pdict cfgAug0D

/-- The fixture config with a truthy `SpectrogramAugmentation`
mapping. -/
def cfgAug1 : PVal :=
  PVal.pdict (cfgExD ++
    [("SpectrogramAugmentation", PVal.pdict [("freq_masks", PVal.pint 2)])])

/-- The parts `parseCfg` extracts from `cfgEx` with `total_cpus = 8`,
`world_size = 1`, the default batch/step/GPU counts and a train
manifest of 100 utterances. -/
def pEx : CfgParts :=
  { vocab := PVal.plist [PVal.pstr "a", PVal.pstr "b", PVal.pstr "c"]
    sample_rate := PVal.pint 16000
    cpu_per_traindl := 8
    train_dl_params := tpExLit
    eval_dl_params := epExLit
    steps_per_epoch := 3
    preprocKwargs := [("features", PVal.pint 64)]
    features := PVal.pint 64
    encoderKwargs := [("jasper", jasperEx)]
    filters := PVal.pint 1024
    vocabLen := 3
    spectrAug := Option.none }

/-- `pEx` with the truthy augmentation config of `cfgAug1`. -/
def pAug1 : CfgParts :=
  { pEx with spectrAug := some [("freq_masks", PVal.pint 2)] }

/-- Fixture args: required flags only (no eval datasets). -/
def argsNE : Args := { num_epochs := 2, model_config := "m.yaml" }

/-- Fixture args with two eval datasets. -/
def argsEv : Args :=
  { num_epochs := 3, model_config := "m.yaml",
    eval_datasets := ["d/ev1.json", "ev2.json"] }

/-- Fixture args with a non-empty checkpoint directory and one eval
dataset. -/
def argsCk2 : Args :=
  { num_epochs := 1, model_config := "m.yaml",
    checkpoint_dir := some "ck", eval_datasets := ["d/ev1.json"] }

/-- Fixture args whose `--checkpoint_dir` is supplied as the empty
string: the flag is set, but falsy. -/
def argsCk0 : Args :=
  { num_epochs := 1, model_config := "m.yaml", checkpoint_dir := some "" }

/-- Fixture args with a wandb key. -/
def argsWK : Args :=
  { num_epochs := 1, model_config := "m.yaml", wandb_key := some "key123" }

/-- Fixture heap: `quartz_params` at address 0, its
`AudioToTextDataLayer` dict at address 1, and the `train`/`eval`
sub-dicts at addresses 2 and 3. -/
def hEx : Heap :=
  ⟨[[("AudioToTextDataLayer", HVal.href 1)],
    [("batch", HVal.hprim "s"), ("train", HVal.href 2),
     ("eval", HVal.href 3)],
    [("batch", HVal.hprim "tr")],
    [("batch", HVal.hprim "ev")]]⟩

/-- The heap after `overlayTrain 10 hEx 0`: the original four cells are
unchanged; cells 4-6 are the deep copies, with the overlay applied to
cell 6 (`train_dl_params`). -/
def hExOut : Heap :=
  ⟨[[("AudioToTextDataLayer", HVal.href 1)],
    [("batch", HVal.hprim "s"), ("train", HVal.href 2),
     ("eval", HVal.href 3)],
    [("batch", HVal.hprim "tr")],
    [("batch", HVal.hprim "ev")],
    [("batch", HVal.hprim "tr")],
    [("batch", HVal.hprim "ev")],
    [("batch", HVal.hprim "tr")]]⟩

/-! ### Inversion and lookup lemmas -/

/-- Inverting a successful `Except` bind. -/
theorem except_bind_ok {α β : Type} {x : Except Err α} {f : α → Except Err β}
    {r : β} :
    (x >>= f = Except.ok r) ↔ ∃ a, x = Except.ok a ∧ f a = Except.ok r := by
  cases x with
  | error e =>
    show Except.error e = Except.ok r ↔ _
    simp
  | ok a =>
    show f a = Except.ok r ↔ _
    simp

/-- Inverting a successful `Except.map`. -/
theorem except_map_ok {α β : Type} {x : Except Err α} {f : α → β} {r : β} :
    (x.map f = Except.ok r) ↔ ∃ a, x = Except.ok a ∧ f a = r := by
  cases x with
  | error e =>
    show Except.error e = Except.ok r ↔ _
    simp
  | ok a =>
    show Except.ok (f a) = Except.ok r ↔ _
    simp

/-- A failing `Except` bind fails with the same error. -/
theorem except_bind_error {α β : Type} {x : Except Err α}
    {f : α → Except Err β} {e : Err} (h : x = Except.error e) :
    x >>= f = Except.error e := by
  cases h; rfl

/-- Lookup on a cons cell. -/
theorem dlookup_cons (kv : String × PVal) (rest : List (String × PVal))
    (k : String) :
    dlookup (kv :: rest) k =
      if kv.1 = k then some kv.2 else dlookup rest k := by
  by_cases h : kv.1 = k <;> simp [dlookup, List.find?_cons, h]

/-- `dlookup` after `dset`: the written key reads back the written value
and every other key is unchanged. -/
theorem dlookup_dset (d : List (String × PVal)) (k k' : String) (v : PVal) :
    dlookup (dset d k v) k' = if k' = k then some v else dlookup d k' := by
  induction d with
  | nil =>
    rw [show dset [] k v = [(k, v)] from rfl, dlookup_cons]
    by_cases h : k' = k
    · rw [if_pos h.symm, if_pos h]
    · rw [if_neg (fun hc => h hc.symm), if_neg h]
  | cons kv rest ih =>
    by_cases hk : kv.1 = k
    · rw [show dset (kv :: rest) k v = (k, v) :: rest from by
          simp [dset, hk],
        dlookup_cons, dlookup_cons]
      by_cases h : k' = k
      · rw [if_pos h.symm, if_pos h]
      · have hkv : ¬ kv.1 = k' := fun hc => h (hc.symm.trans hk)
        rw [if_neg (fun hc => h hc.symm), if_neg h, if_neg hkv]
    · rw [show dset (kv :: rest) k v = kv :: dset rest k v from by
          simp [dset, hk],
        dlookup_cons, dlookup_cons, ih]
      by_cases h' : kv.1 = k'
      · have hne : ¬ k' = k := fun hc => hk (h'.trans hc)
        rw [if_pos h', if_neg hne, if_pos h']
      · rw [if_neg h', if_neg h']

/-- A key that occurs in no entry looks up to `none`. -/
theorem dlookup_eq_none_of_not_mem {d : List (String × PVal)} {k : String}
    (h : k ∉ d.map Prod.fst) : dlookup d k = Option.none := by
  induction d with
  | nil => rfl
  | cons kv rest ih =>
    simp only [List.map_cons, List.mem_cons] at h
    push_neg at h
    rw [dlookup_cons, if_neg (fun hc => h.1 hc.symm)]
    exact ih h.2

/-- `dlookup` after `dupdate`: keys of the update source win, all other
keys fall back to the target (for a source with distinct keys, as every
Python dict has). -/
theorem dlookup_dupdate (e d : List (String × PVal)) (k : String)
    (hnd : (e.map Prod.fst).Nodup) :
    dlookup (dupdate d e) k =
      (dlookup e k).orElse (fun _ => dlookup d k) := by
  induction e generalizing d with
  | nil => rfl
  | cons kv rest ih =>
    simp only [List.map_cons, List.nodup_cons] at hnd
    have step : dupdate d (kv :: rest) = dupdate (dset d kv.1 kv.2) rest := rfl
    rw [step, ih _ hnd.2, dlookup_cons]
    by_cases h : kv.1 = k
    · have hrest : dlookup rest k = Option.none :=
        dlookup_eq_none_of_not_mem (h ▸ hnd.1)
      rw [hrest, if_pos h]
      show dlookup (dset d kv.1 kv.2) k = some kv.2
      rw [dlookup_dset, if_pos h.symm]
    · rw [if_neg h]
      cases hr : dlookup rest k with
      | none =>
        show dlookup (dset d kv.1 kv.2) k = dlookup d k
        rw [dlookup_dset, if_neg (fun hc => h hc.symm)]
      | some v => rfl

/-- Inverting a successful `del d[k]`: the result is the body with that
key removed. -/
theorem ddelE_ok {d d' : List (String × PVal)} {k : String}
    (h : ddelE d k = Except.ok d') :
    d' = d.filter (fun kv => !(kv.1 == k)) := by
  unfold ddelE at h
  by_cases hp : (d.find? (fun kv => kv.1 == k)).isSome
  · rw [if_pos hp] at h; cases h; rfl
  · rw [if_neg hp] at h; cases h

/-- `dlookup` after removing a key: that key reads `none`, the others
are unchanged. -/
theorem dlookup_filter_ne (d : List (String × PVal)) (k k' : String) :
    dlookup (d.filter (fun kv => !(kv.1 == k))) k' =
      if k' = k then Option.none else dlookup d k' := by
  induction d with
  | nil => by_cases h : k' = k <;> simp [dlookup, h]
  | cons kv rest ih =>
    rw [List.filter_cons]
    by_cases hk : kv.1 = k
    · have : (!(kv.1 == k)) = false := by simp [hk]
      rw [this]
      simp only [Bool.false_eq_true, if_false]
      rw [ih, dlookup_cons]
      by_cases h : k' = k
      · simp [h]
      · have : ¬ kv.1 = k' := fun hc => h ((hc.symm.trans hk).symm ▸ rfl)
        have hne : ¬ kv.1 = k' := fun hc => h (by rw [← hc, hk])
        rw [if_neg h, if_neg h, if_neg hne]

    · have : (!(kv.1 == k)) = true := by simp [hk]
      rw [this]
      simp only [if_true]
      rw [dlookup_cons, dlookup_cons, ih]
      by_cases h' : kv.1 = k'
      · have hne : ¬ k' = k := fun hc => hk (h'.trans hc)
        rw [if_pos h', if_neg hne, if_pos h']
      · rw [if_neg h', if_neg h']

/-- Inverting a successful `pyDiv`. -/
theorem pyDiv_ok {a b : Nat} {q : PyFloat} (h : pyDiv a b = Except.ok q) :
    b ≠ 0 ∧ q = ⟨(a : Int), (b : Int)⟩ := by
  unfold pyDiv at h
  by_cases hb : b = 0
  · rw [if_pos hb] at h; cases h
  · rw [if_neg hb] at h; cases h; exact ⟨hb, rfl⟩

/-- Truncation of the exact quotient of naturals is their floor
division. -/
theorem pyTrunc_natCast (a b : Nat) :
    pyTrunc ⟨(a : Int), (b : Int)⟩ = ((a / b : Nat) : Int) := rfl

/-- Inverting a successful `mkTrainDlParams`. -/
theorem mkTrainDlParams_ok {adl : PVal} {tp : List (String × PVal)}
    (h : mkTrainDlParams adl = Except.ok tp) :
    ∃ base sub subD m1,
      asDict adl = Except.ok base ∧
      getItem adl "train" = Except.ok sub ∧
      asDict sub = Except.ok subD ∧
      ddelE (dupdate base subD) "train" = Except.ok m1 ∧
      ddelE m1 "eval" = Except.ok tp := by
  simp only [mkTrainDlParams, except_bind_ok] at h
  obtain ⟨base, h1, sub, h2, subD, h3, m1, h4, h5⟩ := h
  exact ⟨base, sub, subD, m1, h1, h2, h3, h4, h5⟩

/-- Inverting a successful `mkEvalDlParams`. -/
theorem mkEvalDlParams_ok {adl : PVal} {ep : List (String × PVal)}
    (h : mkEvalDlParams adl = Except.ok ep) :
    ∃ base sub subD m1,
      asDict adl = Except.ok base ∧
      getItem adl "eval" = Except.ok sub ∧
      asDict sub = Except.ok subD ∧
      ddelE (dupdate base subD) "train" = Except.ok m1 ∧
      ddelE m1 "eval" = Except.ok ep := by
  simp only [mkEvalDlParams, except_bind_ok] at h
  obtain ⟨base, h1, sub, h2, subD, h3, m1, h4, h5⟩ := h
  exact ⟨base, sub, subD, m1, h1, h2, h3, h4, h5⟩

/-- The key-by-key content of a successful sub-mapping overlay
(`deepcopy`d shared dict, `update` with the sub-mapping, `del` of the
`train` and `eval` keys): sub-mapping keys win, `train` and `eval` read
nothing, all other keys fall back to the shared dict. -/
theorem overlay_lookup {base subD tp : List (String × PVal)}
    {m1 : List (String × PVal)}
    (h4 : ddelE (dupdate base subD) "train" = Except.ok m1)
    (h5 : ddelE m1 "eval" = Except.ok tp)
    (hnd : (subD.map Prod.fst).Nodup) :
    ∀ k, dlookup tp k =
      if k = "train" ∨ k = "eval" then Option.none
      else (dlookup subD k).orElse (fun _ => dlookup base k) := by
  intro k
  rw [ddelE_ok h5, dlookup_filter_ne, ddelE_ok h4, dlookup_filter_ne,
    dlookup_dupdate _ _ _ hnd]
  by_cases he : k = "eval"
  · simp [he]
  · by_cases ht : k = "train" <;> simp [he, ht]

/-- Inverting a successful `parseCfg`: every extraction step succeeded
and the parts are assembled from the extracted values. -/
theorem parseCfg_ok_inv {cfg : PVal}
    {total_cpus world_size batch_size iter_per_step num_gpus trainLen : Nat}
    {p : CfgParts}
    (h : parseCfg cfg total_cpus world_size batch_size iter_per_step
      num_gpus trainLen = Except.ok p) :
    ∃ vocab sr q1 adl tdp q2 edp preK preD feat je jeD jas jasL lastE filt
      vocabL sp,
      getItem cfg "labels" = Except.ok vocab ∧
      getItem cfg "sample_rate" = Except.ok sr ∧
      pyDiv total_cpus world_size = Except.ok q1 ∧
      getItem cfg "AudioToTextDataLayer" = Except.ok adl ∧
      mkTrainDlParams adl = Except.ok tdp ∧
      pyDiv trainLen (batch_size * iter_per_step * num_gpus) =
        Except.ok q2 ∧
      mkEvalDlParams adl = Except.ok edp ∧
      getItem cfg "AudioToMelSpectrogramPreprocessor" = Except.ok preK ∧
      asDict preK = Except.ok preD ∧
      getItem preK "features" = Except.ok feat ∧
      getItem cfg "JasperEncoder" = Except.ok je ∧
      asDict je = Except.ok jeD ∧
      getItem je "jasper" = Except.ok jas ∧
      asList jas = Except.ok jasL ∧
      pyLast jasL = Except.ok lastE ∧
      getItem lastE "filters" = Except.ok filt ∧
      asList vocab = Except.ok vocabL ∧
      mkSpectrAug cfg = Except.ok sp ∧
      p = { vocab := vocab
            sample_rate := sr
            cpu_per_traindl := max (pyTrunc q1) 1
            train_dl_params := tdp
            eval_dl_params := edp
            steps_per_epoch := pyTrunc q2
            preprocKwargs := preD
            features := feat
            encoderKwargs := jeD
            filters := filt
            vocabLen := vocabL.length
            spectrAug := sp } := by
  simp only [parseCfg, except_bind_ok, Except.ok.injEq] at h
  obtain ⟨vocab, h1, sr, h2, q1, h3, adl, h4, tdp, h5, q2, h6, edp, h7,
    preK, h8, preD, h9, feat, h10, je, h11, jeD, h12, jas, h13, jasL, h14,
    lastE, h15, filt, h16, vocabL, h17, sp, h18, hp⟩ := h
  exact ⟨vocab, sr, q1, adl, tdp, q2, edp, preK, preD, feat, je, jeD, jas,
    jasL, lastE, filt, vocabL, sp, h1, h2, h3, h4, h5, h6, h7, h8, h9, h10,
    h11, h12, h13, h14, h15, h16, h17, h18, hp.symm⟩

/-- Inverting a successful `createAllDags`. -/
theorem createAllDags_ok {args : Args} {cfg : PVal}
    {total_cpus world_size trainLen : Nat} {r : DagsResult}
    (h : createAllDags args cfg total_cpus world_size trainLen =
      Except.ok r) :
    ∃ p, parseCfg cfg total_cpus world_size args.batch_size
      args.iter_per_step args.num_gpus trainLen = Except.ok p ∧
      r = assembleDags args p := by
  unfold createAllDags at h
  obtain ⟨p, hp, hr⟩ := except_map_ok.mp h
  exact ⟨p, hp, hr.symm⟩

/-- Appending one mapped element per list element in a left fold. -/
theorem foldl_append_map {α β : Type} (g : α → β) (l : List α)
    (cs : List β) :
    l.foldl (fun acc x => acc ++ [g x]) cs = cs ++ l.map g := by
  induction l generalizing cs with
  | nil => simp
  | cons a rest ih => simp [List.foldl_cons, ih]

/-- Indexing with default over the range of a list's length is just
mapping over the list. -/
theorem range_map_getD {β : Type} (g : String → β) (ds : List String) :
    (List.range ds.length).map (fun i => g (ds.getD i "")) = ds.map g := by
  induction ds with
  | nil => rfl
  | cons d rest ih =>
    rw [List.length_cons, List.range_succ_eq_map, List.map_cons,
      List.map_map, List.map_cons]
    refine congrArg (fun t => _ :: t) ?_
    exact ih

/-- The callback list in closed form: loss logger, then the checkpoint
callback exactly under the truthiness condition, then the wandb
callback, then one evaluator per eval dataset in order. -/
theorem buildCallbacks_eq (args : Args) (dls : List DataLayerArgs)
    (hlen : dls.length = args.eval_datasets.length) :
    buildCallbacks args dls =
      [Callback.lossLogger args.update_freq]
        ++ (if optTruthy args.checkpoint_dir || optTruthy args.load_dir
            then
              [Callback.checkpoint args.checkpoint_dir args.load_dir
                args.eval_freq]
            else [])
        ++ [Callback.wandb args.exp_name args.project args.update_freq]
        ++ args.eval_datasets.map
            (fun ds => Callback.evaluator (tagOf ds) args.eval_freq) := by
  unfold buildCallbacks
  rw [foldl_append_map]
  have henum : (dls.enum).map
      (fun p => Callback.evaluator (tagOf (args.eval_datasets.getD p.1 ""))
        args.eval_freq) =
      args.eval_datasets.map
        (fun ds => Callback.evaluator (tagOf ds) args.eval_freq) := by
    have hcomp : (dls.enum).map
        (fun p => Callback.evaluator
          (tagOf (args.eval_datasets.getD p.1 "")) args.eval_freq) =
        ((dls.enum).map Prod.fst).map
          (fun i => Callback.evaluator
            (tagOf (args.eval_datasets.getD i "")) args.eval_freq) := by
      rw [List.map_map]
      rfl
    rw [hcomp, List.enum_map_fst, hlen]
    exact range_map_getD
      (fun ds => Callback.evaluator (tagOf ds) args.eval_freq)
      args.eval_datasets
  rw [henum]
  by_cases hc : optTruthy args.checkpoint_dir || optTruthy args.load_dir <;>
    simp [hc]

/-! ### Heap lemmas -/

/-- Appending cells does not change existing addresses. -/
theorem heap_get?_append {h : Heap} {ext : List HDict} {a : Nat}
    (ha : a < h.cells.length) :
    Heap.get? ⟨h.cells ++ ext⟩ a = h.get? a := by
  unfold Heap.get?
  exact List.getElem?_append_left ha

/-- Writing one cell does not change the other addresses. -/
theorem heap_get?_setCell_ne {h : Heap} {a b : Nat} {d : HDict}
    (hne : a ≠ b) : (h.setCell a d).get? b = h.get? b := by
  unfold Heap.get? Heap.setCell
  exact List.getElem?_set_ne hne

/-- Inverting `asRef`. -/
theorem asRef_some {v : HVal} {a : Nat} (h : asRef v = some a) :
    v = HVal.href a := by
  cases v with
  | hprim s => cases h
  | href b => cases h; rfl

/-- Inverting a successful `Option.bind`. -/
theorem optBind_eq_some {α β : Type} {x : Option α} {f : α → Option β}
    {b : β} :
    (x.bind f = some b) ↔ ∃ a, x = some a ∧ f a = some b := by
  cases x <;> simp

/-- `deepcopyEntriesF` only appends cells, provided its value-copier
does. -/
theorem deepcopyEntriesF_extend
    {f : Heap → HVal → Option (HVal × Heap)}
    (hf : ∀ h v r, f h v = some r → ∃ ext, r.2.cells = h.cells ++ ext) :
    ∀ (l : HDict) (h : Heap) (r : HDict × Heap),
      deepcopyEntriesF f h l = some r → ∃ ext, r.2.cells = h.cells ++ ext := by
  intro l
  induction l with
  | nil =>
    intro h r hr
    cases hr
    exact ⟨[], by simp⟩
  | cons kv rest ih =>
    intro h r hr
    obtain ⟨k, v⟩ := kv
    simp only [deepcopyEntriesF, optBind_eq_some] at hr
    obtain ⟨p, hp, q, hq, hfin⟩ := hr
    cases hfin
    obtain ⟨e1, he1⟩ := hf h v p hp
    obtain ⟨e2, he2⟩ := ih p.2 q hq
    exact ⟨e1 ++ e2, by simp [he2, he1]⟩

/-- `deepcopyVal` only appends cells. -/
theorem deepcopyVal_extend :
    ∀ (fuel : Nat) (h : Heap) (v : HVal) (r : HVal × Heap),
      deepcopyVal fuel h v = some r → ∃ ext, r.2.cells = h.cells ++ ext := by
  intro fuel
  induction fuel with
  | zero =>
    intro h v r hr
    cases v with
    | hprim s => cases hr; exact ⟨[], by simp⟩
    | href a => cases hr
  | succ n ih =>
    intro h v r hr
    cases v with
    | hprim s => cases hr; exact ⟨[], by simp⟩
    | href a =>
      simp only [deepcopyVal, optBind_eq_some] at hr
      obtain ⟨d, hd, p, hent, hfin⟩ := hr
      cases hfin
      obtain ⟨e1, he1⟩ :=
        deepcopyEntriesF_extend (fun h v r => ih h v r) d h p hent
      exact ⟨e1 ++ [p.1], by simp [Heap.alloc, he1]⟩

/-- The copy of a dict reference is a reference to a fresh cell. -/
theorem deepcopyVal_ref_fresh {fuel : Nat} {h : Heap} {a : Nat}
    {v' : HVal} {h' : Heap}
    (hr : deepcopyVal fuel h (HVal.href a) = some (v', h')) :
    ∃ r, v' = HVal.href r ∧ h.cells.length ≤ r := by
  cases fuel with
  | zero => cases hr
  | succ n =>
    simp only [deepcopyVal, optBind_eq_some] at hr
    obtain ⟨d, hd, p, hent, hfin⟩ := hr
    obtain ⟨e1, he1⟩ :=
      deepcopyEntriesF_extend
        (fun h v r => deepcopyVal_extend n h v r) d h p hent
    cases hfin
    refine ⟨(Heap.alloc p.2 p.1).1, rfl, ?_⟩
    simp [Heap.alloc, he1]

/-- A successful `hlookup` returns the value of an entry of the dict. -/
theorem hlookup_mem {d : HDict} {k : String} {v : HVal}
    (h : hlookup d k = some v) : ∃ kv, kv ∈ d ∧ kv.2 = v := by
  unfold hlookup at h
  cases hf : d.find? (fun kv => kv.1 == k) with
  | none => rw [hf] at h; cases h
  | some kv =>
    rw [hf] at h
    cases h
    exact ⟨kv, List.mem_of_find?_eq_some hf, rfl⟩

/-- In a closed heap every reference read out of a cell is a valid
address. -/
theorem closed_ref_lt {h : Heap} {r : Nat} {d : HDict} {k : String}
    {a : Nat} (hc : Heap.closed h = true) (hget : h.get? r = some d)
    (hlk : hlookup d k = some (HVal.href a)) :
    a < h.cells.length := by
  have hdmem : d ∈ h.cells := List.getElem?_mem hget
  obtain ⟨kv, hkvmem, hkv⟩ := hlookup_mem hlk
  have h1 := (List.all_eq_true.mp hc) d hdmem
  have h2 := (List.all_eq_true.mp h1) kv hkvmem
  rw [hkv] at h2
  simpa using h2

/-- The frame property of the train-side overlay (lines 97-100): because
`train_dl_params` is a `deepcopy`, its address is fresh, every address
that existed before is untouched — in particular the config's
`AudioToTextDataLayer` dict (and its `train`/`eval` sub-mappings) is
unchanged, so the subsequent eval overlay of lines 119-122 reads the
original shared defaults. -/
theorem overlayTrain_frame {fuel : Nat} {h : Heap} {qp : Nat} {h' : Heap}
    {tref : Nat} (hrun : overlayTrain fuel h qp = some (h', tref)) :
    h.cells.length ≤ tref ∧
      ∀ b, b < h.cells.length → h'.get? b = h.get? b := by
  simp only [overlayTrain, optBind_eq_some] at hrun
  obtain ⟨qd, hqd, adlV, hadlV, c, hdc, tref', htref, adlRef, hadlRef,
    adlD, hadlD, trV, htrV, trRef, htrRef, trD, htrD, tD, htD, tD2, htD2,
    tD3, htD3, tD4, htD4, tD5, htD5, hfin⟩ := hrun
  cases hfin
  have hadl : adlV = HVal.href adlRef := asRef_some hadlRef
  rw [hadl] at hdc
  obtain ⟨r, hcv, hfresh⟩ := deepcopyVal_ref_fresh hdc
  have htr : HVal.href r = HVal.href tref := hcv ▸ asRef_some htref
  have hrt : r = tref := by injection htr
  subst hrt
  obtain ⟨ext, hext⟩ := deepcopyVal_extend fuel h _ _ hdc
  refine ⟨hfresh, fun b hb => ?_⟩
  have hbne : r ≠ b := fun hc => absurd (hc ▸ hfresh) (by omega)
  rw [heap_get?_setCell_ne hbne, heap_get?_setCell_ne hbne,
    heap_get?_setCell_ne hbne]
  obtain ⟨cV, h1⟩ := c
  have hh1 : h1 = ⟨h.cells ++ ext⟩ := by
    cases h1 with
    | mk cl => exact congrArg Heap.mk (by simpa using hext)
  rw [hh1, heap_get?_append hb]

/-- Injectivity of `Except.ok`. -/
theorem ok_inj {α : Type} {a b : α} (h : (Except.ok a : Except Err α) = Except.ok b) :
    a = b := by
  cases h; rfl

/-- A successful `parse_args` returns the namespace unchanged, and only
succeeds when `max_steps` was not supplied. -/
theorem parse_args_ok {a b : Args} (h : parse_args a = Except.ok b) :
    b = a ∧ a.max_steps = Option.none := by
  unfold parse_args at h
  by_cases hm : a.max_steps = Option.none
  · rw [if_neg (by simp [hm])] at h
    exact ⟨(ok_inj h).symm, hm⟩
  · rw [if_pos hm] at h
    cases h

/-- The number of eval data layers always matches the number of eval
datasets. -/
theorem assembleDags_dataLayersEval_length (args : Args) (p : CfgParts) :
    (assembleDags args p).dataLayersEval.length =
      args.eval_datasets.length := by
  unfold assembleDags
  by_cases hev : args.eval_datasets.isEmpty
  · simp [hev, List.isEmpty_iff.mp hev]
  · simp [hev]

/-- A successful `mkSpectrAug` returns `some` kwargs exactly when the
`SpectrogramAugmentation` key is present with a truthy value. -/
theorem mkSpectrAug_isSome {cd : List (String × PVal)}
    {sp : Option (List (String × PVal))}
    (h : mkSpectrAug (PVal.pdict cd) = Except.ok sp) :
    sp.isSome = true ↔
      ∃ v, dlookup cd "SpectrogramAugmentation" = some v ∧
        v.truthy = true := by
  unfold mkSpectrAug pyGet at h
  dsimp only at h
  cases hlk : dlookup cd "SpectrogramAugmentation" with
  | none =>
    rw [hlk] at h
    cases h
    simp
  | some v =>
    rw [hlk] at h
    dsimp only at h
    by_cases htr : v.truthy = true
    · rw [if_pos htr] at h
      obtain ⟨d, hd, hsp⟩ := except_map_ok.mp h
      subst hsp
      simp only [Option.isSome_some, true_iff]
      exact ⟨v, rfl, htr⟩
    · rw [if_neg htr] at h
      cases h
      simp only [Option.isSome_none, Bool.false_eq_true, false_iff]
      intro ⟨w, hw, hwt⟩
      cases hw
      exact htr hwt

/-- An address that dereferences successfully is in range. -/
theorem heap_get?_lt {h : Heap} {a : Nat} {d : HDict}
    (hg : h.get? a = some d) : a < h.cells.length := by
  unfold Heap.get? at hg
  by_contra hc
  push_neg at hc
  rw [List.getElem?_eq_none hc] at hg
  cases hg

/-! ### The claims -/

/-- C1: for every argument vector accepted by the parser (`num_epochs`
is a required field of `Args`), `parse_args` raises the mutual-exclusion
`ValueError` if and only if `max_steps` is not `None`, and otherwise
returns the parsed arguments unchanged. -/
theorem claim_C1 (a : Args) :
    (parse_args a =
        Except.error
          "ValueError: QuartzNet uses num_epochs instead of max_steps" ↔
      a.max_steps ≠ Option.none) ∧
    (a.max_steps = Option.none → parse_args a = Except.ok a) := by
  unfold parse_args
  by_cases h : a.max_steps = Option.none
  · rw [if_neg (by simp [h])]
    constructor
    · constructor
      · intro hc; cases hc
      · intro hc; exact absurd h hc
    · intro _; rfl
  · rw [if_pos h]
    exact ⟨⟨fun _ => h, fun _ => rfl⟩, fun hc => absurd hc h⟩

/-- Witness for C1: with no `--max_steps` the namespace is returned
unchanged; with `--max_steps 100` the `ValueError` is raised. -/
theorem claim_C1_witness :
    parse_args { num_epochs := 50, model_config := "quartznet.yaml" } =
      Except.ok { num_epochs := 50, model_config := "quartznet.yaml" } ∧
    parse_args
        { num_epochs := 50, model_config := "quartznet.yaml",
          max_steps := some 100 } =
      Except.error
        "ValueError: QuartzNet uses num_epochs instead of max_steps" := by
  constructor
  · exact (claim_C1 _).2 rfl
  · exact (claim_C1 _).1.mpr (by simp)

/-- C2: for every loaded config whose `AudioToTextDataLayer` mapping has
`train` and `eval` sub-mappings, the `**`-splat keyword arguments of the
train data layer are the shared keys overlaid by the `train` sub-mapping
with `train`/`eval` removed, and symmetrically for the eval data
layer. -/
theorem claim_C2 {base ts es tp ep : List (String × PVal)}
    (hT : mkTrainDlParams (PVal.pdict base) = Except.ok tp)
    (hE : mkEvalDlParams (PVal.pdict base) = Except.ok ep)
    (ht : dlookup base "train" = some (PVal.pdict ts))
    (he : dlookup base "eval" = some (PVal.pdict es))
    (hndt : (ts.map Prod.fst).Nodup)
    (hnde : (es.map Prod.fst).Nodup) :
    (∀ k, dlookup tp k =
      if k = "train" ∨ k = "eval" then Option.none
      else (dlookup ts k).orElse (fun _ => dlookup base k)) ∧
    (∀ k, dlookup ep k =
      if k = "train" ∨ k = "eval" then Option.none
      else (dlookup es k).orElse (fun _ => dlookup base k)) := by
  constructor
  · obtain ⟨b', sub, subD, m1, h1, h2, h3, h4, h5⟩ := mkTrainDlParams_ok hT
    have hb : b' = base := (ok_inj h1).symm
    subst hb
    have hsub : sub = PVal.pdict ts := by
      unfold getItem at h2
      dsimp only at h2
      rw [ht] at h2
      exact (ok_inj h2).symm
    subst hsub
    have hsubD : subD = ts := (ok_inj h3).symm
    subst hsubD
    exact overlay_lookup h4 h5 hndt
  · obtain ⟨b', sub, subD, m1, h1, h2, h3, h4, h5⟩ := mkEvalDlParams_ok hE
    have hb : b' = base := (ok_inj h1).symm
    subst hb
    have hsub : sub = PVal.pdict es := by
      unfold getItem at h2
      dsimp only at h2
      rw [he] at h2
      exact (ok_inj h2).symm
    subst hsub
    have hsubD : subD = es := (ok_inj h3).symm
    subst hsubD
    exact overlay_lookup h4 h5 hnde

/-- Witness for C2 on the fixture config: the train overlay overrides
`shuffle` with the `train` value, the eval overlay keeps the shared
`shuffle` and adds `max_duration`. -/
theorem claim_C2_witness :
    dlookup tpExLit "shuffle" = some (PVal.pbool false) ∧
    dlookup epExLit "shuffle" = some (PVal.pbool true) ∧
    dlookup epExLit "max_duration" = some (PVal.pint 15) ∧
    dlookup tpExLit "train" = Option.none := by
  have h := @claim_C2 baseEx tsEx esEx tpExLit epExLit (by rfl) (by rfl)
    rfl rfl (by decide) (by decide)
  refine ⟨?_, ?_, ?_, ?_⟩
  · exact (h.1 "shuffle").trans (by rfl)
  · exact (h.2 "shuffle").trans (by rfl)
  · exact (h.2 "max_duration").trans (by rfl)
  · exact (h.1 "train").trans (by rfl)

/-- Counterexample to C3 as stated: with `--checkpoint_dir ""` the flag
is set (`isSome`), yet `create_all_dags` succeeds with no checkpoint
callback, because line 197 tests Python truthiness (`if
args.checkpoint_dir or args.load_dir:`) and the empty string is
falsy. -/
theorem claim_C3_counterexample :
    (argsCk0.checkpoint_dir.isSome || argsCk0.load_dir.isSome) = true ∧
    (createAllDags argsCk0 cfgEx 8 1 100).map
      (fun r => r.callbacks.countP (fun c => c.isCheckpoint)) =
      Except.ok 0 := by
  constructor
  · rfl
  · rfl

/-- C3 (amended): `create_all_dags` returns, in order, the loss-logging
callback, then the checkpoint callback exactly when `checkpoint_dir` or
`load_dir` is set to a truthy (non-empty) value, then the wandb
callback, then one evaluator per entry of `eval_datasets` in dataset
order. -/
theorem claim_C3 {args : Args} {cfg : PVal} {tc ws N : Nat}
    {r : DagsResult}
    (h : createAllDags args cfg tc ws N = Except.ok r) :
    r.callbacks =
      [Callback.lossLogger args.update_freq]
        ++ (if optTruthy args.checkpoint_dir || optTruthy args.load_dir
            then
              [Callback.checkpoint args.checkpoint_dir args.load_dir
                args.eval_freq]
            else [])
        ++ [Callback.wandb args.exp_name args.project args.update_freq]
        ++ args.eval_datasets.map
            (fun ds => Callback.evaluator (tagOf ds) args.eval_freq) := by
  obtain ⟨p, hp, hr⟩ := createAllDags_ok h
  subst hr
  have hcb : (assembleDags args p).callbacks =
      buildCallbacks args ((assembleDags args p).dataLayersEval) := rfl
  rw [hcb]
  exact buildCallbacks_eq args _ (assembleDags_dataLayersEval_length args p)

/-- Witness for C3 (amended) on the fixture config with
`--checkpoint_dir ck` and one eval dataset. -/
theorem claim_C3_witness :
    (assembleDags argsCk2 pEx).callbacks =
      [Callback.lossLogger 50,
       Callback.checkpoint (some "ck") Option.none 1000,
       Callback.wandb "QuartzNet" "quartznet-single-node" 50,
       Callback.evaluator "ev1" 1000] := by
  have h : createAllDags argsCk2 cfgEx 8 1 100 =
      Except.ok (assembleDags argsCk2 pEx) := by rfl
  exact (claim_C3 h).trans (by rfl)

/-- C4: the CTC decoder's input feature size is the `filters` field of
the last entry of the `JasperEncoder` config's `jasper` list, and its
number of classes — like the CTC loss's — is the length of the
top-level `labels` list. -/
theorem claim_C4 {args : Args} {cfg : PVal} {tc ws N : Nat}
    {r : DagsResult} {je lastE filt : PVal} {jasL vs : List PVal}
    (h : createAllDags args cfg tc ws N = Except.ok r)
    (hje : getItem cfg "JasperEncoder" = Except.ok je)
    (hjas : getItem je "jasper" = Except.ok (PVal.plist jasL))
    (hlast : pyLast jasL = Except.ok lastE)
    (hfilt : getItem lastE "filters" = Except.ok filt)
    (hvocab : getItem cfg "labels" = Except.ok (PVal.plist vs)) :
    r.decoderFeatIn = filt ∧ r.decoderNumClasses = vs.length ∧
      r.ctcNumClasses = vs.length := by
  obtain ⟨p, hp, hr⟩ := createAllDags_ok h
  subst hr
  obtain ⟨vocab, sr, q1, adl, tdp, q2, edp, preK, preD, feat, je', jeD, jas,
    jasL', lastE', filt', vocabL, sp, h1, h2, h3, h4, h5, h6, h7, h8, h9,
    h10, h11, h12, h13, h14, h15, h16, h17, h18, hpeq⟩ := parseCfg_ok_inv hp
  have hje' : je' = je := ok_inj (h11.symm.trans hje)
  subst hje'
  have hjas' : jas = PVal.plist jasL := ok_inj (h13.symm.trans hjas)
  subst hjas'
  have hjasL : jasL' = jasL := (ok_inj h14).symm
  subst hjasL
  have hlastE : lastE' = lastE := ok_inj (h15.symm.trans hlast)
  subst hlastE
  have hfilt' : filt' = filt := ok_inj (h16.symm.trans hfilt)
  subst hfilt'
  have hvocab' : vocab = PVal.plist vs := ok_inj (h1.symm.trans hvocab)
  subst hvocab'
  have hvocabL : vocabL = vs := (ok_inj h17).symm
  subst hvocabL
  subst hpeq
  exact ⟨rfl, rfl, rfl⟩

/-- Witness for C4 on the fixture config: the last jasper entry has
`filters = 1024` and there are three labels. -/
theorem claim_C4_witness :
    (assembleDags argsNE pEx).decoderFeatIn = PVal.pint 1024 ∧
    (assembleDags argsNE pEx).decoderNumClasses = 3 ∧
    (assembleDags argsNE pEx).ctcNumClasses = 3 := by
  have h : createAllDags argsNE cfgEx 8 1 100 =
      Except.ok (assembleDags argsNE pEx) := by rfl
  have hc := claim_C4 h rfl rfl rfl rfl rfl
  exact ⟨hc.1, hc.2.1.trans (by rfl), hc.2.2.trans (by rfl)⟩

/-- Counterexample to C5 as stated: with `SpectrogramAugmentation`
present in the config but bound to an empty (falsy) mapping,
construction succeeds and the training DAG contains no augmentation
module, because line 168 tests truthiness (`if spectr_augment_config:`)
rather than key presence. -/
theorem claim_C5_counterexample :
    (dlookup cfgAug0D "SpectrogramAugmentation").isSome = true ∧
    (createAllDags argsNE cfgAug0 8 1 100).map
      (fun r => decide (DagNode.spectrAugment ∈ r.trainDag)) =
      Except.ok false := by
  constructor
  · rfl
  · rfl

/-- C5 (amended): the spectrogram-augmentation module is instantiated
and inserted between the preprocessor and the encoder in the training
DAG exactly when the `SpectrogramAugmentation` key is present with a
truthy (non-empty) value; otherwise the preprocessor feeds the encoder
directly and construction still succeeds; the evaluation DAGs never
contain the augmentation module. -/
theorem claim_C5 {args : Args} {cfg : PVal} {cd : List (String × PVal)}
    {tc ws N : Nat} {r : DagsResult}
    (h : createAllDags args cfg tc ws N = Except.ok r)
    (hcfg : cfg = PVal.pdict cd) :
    ((DagNode.spectrAugment ∈ r.trainDag) ↔
      ∃ v, dlookup cd "SpectrogramAugmentation" = some v ∧
        v.truthy = true) ∧
    r.trainDag =
      [DagNode.dataLayer, DagNode.preprocessor]
        ++ (if r.spectrAug.isSome then [DagNode.spectrAugment] else [])
        ++ [DagNode.encoder, DagNode.decoder, DagNode.greedyDecoder,
            DagNode.ctcLoss] ∧
    (∀ d ∈ r.evalDags, DagNode.spectrAugment ∉ d) := by
  subst hcfg
  obtain ⟨p, hp, hr⟩ := createAllDags_ok h
  subst hr
  obtain ⟨vocab, sr, q1, adl, tdp, q2, edp, preK, preD, feat, je, jeD, jas,
    jasL, lastE, filt, vocabL, sp, h1, h2, h3, h4, h5, h6, h7, h8, h9,
    h10, h11, h12, h13, h14, h15, h16, h17, h18, hpeq⟩ := parseCfg_ok_inv hp
  subst hpeq
  refine ⟨?_, rfl, ?_⟩
  · rw [← mkSpectrAug_isSome h18]
    cases sp with
    | none => simp [assembleDags]
    | some d => simp [assembleDags]
  · intro d hd
    have : d = evalChain := by
      unfold assembleDags at hd
      dsimp only at hd
      obtain ⟨x, hx, hxd⟩ := List.mem_map.mp hd
      exact hxd.symm
    rw [this]
    decide

/-- Witness for C5 (amended): with the truthy augmentation config the
training DAG contains the augmentation node between the preprocessor
and the encoder, and no eval DAG contains it. -/
theorem claim_C5_witness :
    (DagNode.spectrAugment ∈ (assembleDags argsEv pAug1).trainDag) ∧
    (assembleDags argsEv pAug1).trainDag =
      [DagNode.dataLayer, DagNode.preprocessor, DagNode.spectrAugment,
       DagNode.encoder, DagNode.decoder, DagNode.greedyDecoder,
       DagNode.ctcLoss] ∧
    (∀ d ∈ (assembleDags argsEv pAug1).evalDags,
      DagNode.spectrAugment ∉ d) := by
  have h : createAllDags argsEv cfgAug1 8 1 100 =
      Except.ok (assembleDags argsEv pAug1) := by rfl
  have hc := claim_C5 h rfl
  refine ⟨?_, hc.2.1.trans (by rfl), hc.2.2⟩
  exact hc.1.mpr ⟨PVal.pdict [("freq_masks", PVal.pint 2)], rfl, rfl⟩

/-- C6: one evaluation data layer and one evaluation DAG (data layer,
preprocessor, encoder, decoder, greedy decoder, CTC loss over the
shared modules) per entry of `eval_datasets`, in order; with no eval
datasets the no-eval warning is logged, no evaluator callback or eval
DAG exists, and construction still succeeds with the same training
DAG. -/
theorem claim_C6 {args : Args} {cfg : PVal} {tc ws N : Nat}
    {r : DagsResult}
    (h : createAllDags args cfg tc ws N = Except.ok r) :
    r.dataLayersEval.length = args.eval_datasets.length ∧
    r.evalDags.length = args.eval_datasets.length ∧
    (∀ i : Nat, (r.dataLayersEval[i]?).map
      (fun dl => dl.manifest_filepath) = args.eval_datasets[i]?) ∧
    (∀ d ∈ r.evalDags, d = evalChain) ∧
    (args.eval_datasets = [] →
      r.warnedNoEval = true ∧ r.evalDags = [] ∧
      r.callbacks.countP (fun c => c.isEvaluator) = 0) ∧
    (∃ r', createAllDags { args with eval_datasets := [] } cfg tc ws N =
        Except.ok r' ∧
      r'.trainDag = r.trainDag ∧ r'.evalDags = [] ∧
      r'.warnedNoEval = true) := by
  obtain ⟨p, hp, hr⟩ := createAllDags_ok h
  subst hr
  have hlen := assembleDags_dataLayersEval_length args p
  refine ⟨hlen, ?_, ?_, ?_, ?_, ?_⟩
  · have : (assembleDags args p).evalDags =
        (assembleDags args p).dataLayersEval.map (fun _ => evalChain) := rfl
    rw [this, List.length_map, hlen]
  · intro i
    unfold assembleDags
    dsimp only
    by_cases hev : args.eval_datasets.isEmpty
    · rw [if_pos hev, List.isEmpty_iff.mp hev]
      rfl
    · rw [if_neg hev, List.getElem?_map, Option.map_map]
      cases args.eval_datasets[i]? <;> rfl
  · intro d hd
    have : (assembleDags args p).evalDags =
        (assembleDags args p).dataLayersEval.map (fun _ => evalChain) := rfl
    rw [this] at hd
    obtain ⟨x, hx, hxd⟩ := List.mem_map.mp hd
    exact hxd.symm
  · intro hemp
    have hwarn : (assembleDags args p).warnedNoEval = true := by
      unfold assembleDags
      dsimp only
      rw [hemp]
      rfl
    have hdls : (assembleDags args p).dataLayersEval = [] := by
      unfold assembleDags
      dsimp only
      rw [hemp]
      rfl
    refine ⟨hwarn, ?_, ?_⟩
    · have : (assembleDags args p).evalDags =
          (assembleDags args p).dataLayersEval.map (fun _ => evalChain) :=
        rfl
      rw [this, hdls]
      rfl
    · have hcb : (assembleDags args p).callbacks =
          buildCallbacks args ((assembleDags args p).dataLayersEval) := rfl
      rw [hcb, hdls, buildCallbacks_eq args [] (by rw [hemp]; rfl), hemp]
      by_cases hck : optTruthy args.checkpoint_dir || optTruthy args.load_dir <;>
        simp [hck, List.countP_cons, Callback.isEvaluator]
  · refine ⟨assembleDags { args with eval_datasets := [] } p, ?_, rfl, rfl,
      rfl⟩
    have : createAllDags { args with eval_datasets := [] } cfg tc ws N =
        (parseCfg cfg tc ws args.batch_size args.iter_per_step args.num_gpus
          N).map (assembleDags { args with eval_datasets := [] }) := rfl
    rw [this, hp]
    rfl

/-- Witness for C6 on the fixture config with no eval datasets. -/
theorem claim_C6_witness :
    (assembleDags argsNE pEx).warnedNoEval = true ∧
    (assembleDags argsNE pEx).evalDags = [] ∧
    (assembleDags argsNE pEx).callbacks.countP
      (fun c => c.isEvaluator) = 0 := by
  have h : createAllDags argsNE cfgEx 8 1 100 =
      Except.ok (assembleDags argsNE pEx) := by rfl
  exact (claim_C6 h).2.2.2.2.1 rfl

/-- C7: apart from the mutual-exclusion `ValueError` of `parse_args`,
the script handles no exception: an error in the config-extraction
stage propagates unchanged through `create_all_dags`, an error in
`create_all_dags` propagates unchanged through `main` (no retry, no
recovery — the computation stops with exactly that error), and a
`max_steps` conflict surfaces from `main` as the `ValueError`. -/
theorem claim_C7 :
    (∀ (args : Args) (cfg : PVal) (tc ws N : Nat) (e : Err),
      parseCfg cfg tc ws args.batch_size args.iter_per_step args.num_gpus
        N = Except.error e →
      createAllDags args cfg tc ws N = Except.error e) ∧
    (∀ (a : Args) (cfg : PVal) (tc ws : Nat) (fk : Option String)
      (N : Nat) (e : Err),
      a.max_steps = Option.none →
      createAllDags (argsAfterFactory a ws fk) cfg tc ws N =
        Except.error e →
      (mainModel a cfg tc ws fk N).2 = Except.error e) ∧
    (∀ (a : Args) (cfg : PVal) (tc ws : Nat) (fk : Option String)
      (N : Nat),
      a.max_steps ≠ Option.none →
      (mainModel a cfg tc ws fk N).2 =
        Except.error
          "ValueError: QuartzNet uses num_epochs instead of max_steps") := by
  refine ⟨?_, ?_, ?_⟩
  · intro args cfg tc ws N e hp
    unfold createAllDags
    rw [hp]
    rfl
  · intro a cfg tc ws fk N e hms hca
    have hpa : parse_args a = Except.ok a := by
      unfold parse_args
      rw [if_neg (by simp [hms])]
    unfold mainModel
    rw [hpa]
    dsimp only
    rw [hca]
  · intro a cfg tc ws fk N hms
    have hpa : parse_args a =
        Except.error
          "ValueError: QuartzNet uses num_epochs instead of max_steps" := by
      unfold parse_args
      rw [if_pos hms]
    unfold mainModel
    rw [hpa]

/-- Witness for C7: a config missing the `labels` key makes
`create_all_dags` fail with the `KeyError`, and `main` returns exactly
that error. -/
theorem claim_C7_witness :
    (mainModel argsNE (PVal.pdict []) 8 1 Option.none 100).2 =
      Except.error "KeyError: labels" := by
  exact claim_C7.2.1 argsNE (PVal.pdict []) 8 1 Option.none 100
    "KeyError: labels" rfl (by rfl)

/-- C8: `main` runs the shell command `wandb login <key>` if and only
if `--wandb_key` was supplied with a truthy value; with no key it runs
no shell command; and the rest of `main` (DAG construction and the
training call) does not depend on the key at all. -/
theorem claim_C8 (a : Args) (cfg : PVal) (tc ws : Nat)
    (fk : Option String) (N : Nat) (h : a.max_steps = Option.none) :
    ((mainModel a cfg tc ws fk N).1 ≠ [] ↔
      optTruthy a.wandb_key = true) ∧
    (optTruthy a.wandb_key = true →
      (mainModel a cfg tc ws fk N).1 =
        ["wandb login " ++ a.wandb_key.getD ""]) ∧
    (a.wandb_key = Option.none → (mainModel a cfg tc ws fk N).1 = []) ∧
    (∀ w, (mainModel { a with wandb_key := w } cfg tc ws fk N).2 =
      (mainModel a cfg tc ws fk N).2) := by
  have hpa : parse_args a = Except.ok a := by
    unfold parse_args
    rw [if_neg (by simp [h])]
  have hfst : (mainModel a cfg tc ws fk N).1 =
      if optTruthy a.wandb_key then ["wandb login " ++ a.wandb_key.getD ""]
      else [] := by
    unfold mainModel
    rw [hpa]
    dsimp only
    cases createAllDags (argsAfterFactory a ws fk) cfg tc ws N <;> rfl
  refine ⟨?_, ?_, ?_, ?_⟩
  · rw [hfst]
    by_cases hk : optTruthy a.wandb_key = true
    · simp [hk]
    · simp [hk]
  · intro hk
    rw [hfst, if_pos hk]
  · intro hk
    rw [hfst]
    have : optTruthy a.wandb_key = false := by rw [hk]; rfl
    rw [this]
    rfl
  · intro w
    have hpaw : parse_args { a with wandb_key := w } =
        Except.ok { a with wandb_key := w } := by
      unfold parse_args
      rw [if_neg (by
        simp only [show ({ a with wandb_key := w } : Args).max_steps =
          a.max_steps from rfl, h]
        simp)]
    unfold mainModel
    rw [hpa, hpaw]
    dsimp only
    have hcd : createAllDags
        (argsAfterFactory { a with wandb_key := w } ws fk) cfg tc ws N =
        createAllDags (argsAfterFactory a ws fk) cfg tc ws N := rfl
    rw [hcd]
    cases createAllDags (argsAfterFactory a ws fk) cfg tc ws N <;> rfl

/-- Witness for C8: with `--wandb_key key123` the login command is run;
with no key nothing is run. -/
theorem claim_C8_witness :
    (mainModel argsWK cfgEx 8 1 Option.none 100).1 =
      ["wandb login key123"] ∧
    (mainModel argsNE cfgEx 8 1 Option.none 100).1 = [] := by
  constructor
  · exact ((claim_C8 argsWK cfgEx 8 1 Option.none 100 rfl).2.1
      (by rfl)).trans (by rfl)
  · exact (claim_C8 argsNE cfgEx 8 1 Option.none 100 rfl).2.2.1 rfl

/-- C9: the train overlay of lines 97-100 operates on a `deepcopy`, so
it leaves every pre-existing heap cell — in particular the loaded
config's `AudioToTextDataLayer` dict — unchanged: afterwards the config
still maps `AudioToTextDataLayer` to the same dict object, that object
is bit-for-bit the original (its `train` and `eval` sub-mappings
intact), and thus the subsequent eval overlay of lines 119-122 reads
the original shared defaults. -/
theorem claim_C9 {fuel : Nat} {h : Heap} {qp : Nat} {h' : Heap}
    {tref adlRef : Nat} (hclosed : Heap.closed h = true)
    (hrun : overlayTrain fuel h qp = some (h', tref))
    (hadl : readKey h qp "AudioToTextDataLayer" =
      some (HVal.href adlRef)) :
    (∀ b, b < h.cells.length → h'.get? b = h.get? b) ∧
    readKey h' qp "AudioToTextDataLayer" = some (HVal.href adlRef) ∧
    h'.get? adlRef = h.get? adlRef ∧
    readKey h' adlRef "train" = readKey h adlRef "train" ∧
    readKey h' adlRef "eval" = readKey h adlRef "eval" := by
  obtain ⟨hfresh, hframe⟩ := overlayTrain_frame hrun
  unfold readKey at hadl
  obtain ⟨qd, hqd, hlk⟩ := optBind_eq_some.mp hadl
  have hqplt : qp < h.cells.length := heap_get?_lt hqd
  have hadlLt : adlRef < h.cells.length := closed_ref_lt hclosed hqd hlk
  refine ⟨hframe, ?_, hframe adlRef hadlLt, ?_, ?_⟩
  · unfold readKey
    rw [hframe qp hqplt, hqd]
    simpa using hlk
  · unfold readKey
    rw [hframe adlRef hadlLt]
  · unfold readKey
    rw [hframe adlRef hadlLt]

/-- Witness for C9 on the fixture heap: after the train overlay the
original `AudioToTextDataLayer` cell is unchanged with `train` and
`eval` intact, while the overlay itself lives in the fresh cell 6. -/
theorem claim_C9_witness :
    hExOut.get? 1 = hEx.get? 1 ∧
    readKey hExOut 0 "AudioToTextDataLayer" = some (HVal.href 1) ∧
    readKey hExOut 1 "train" = readKey hEx 1 "train" ∧
    readKey hExOut 1 "eval" = readKey hEx 1 "eval" := by
  have hc := @claim_C9 10 hEx 0 hExOut 6 1 (by decide) (by decide) (by decide)
  exact ⟨hc.1 1 (by decide), hc.2.1, hc.2.2.2.1, hc.2.2.2.2⟩

/-- C10: for a train dataset of length `N` and positive batch size,
iteration count and GPU count, `steps_per_epoch` is the truncation of
the exact quotient `N / (batch_size * iter_per_step * num_gpus)` — the
natural floor division, zero when `N` is smaller than the effective
batch — the learning-rate policy's total step count is
`num_epochs * steps_per_epoch`, and the data-loader worker count is
`max(total_cpus / world_size, 1) ≥ 1`. -/
theorem claim_C10 {args : Args} {cfg : PVal} {tc ws N : Nat}
    {r : DagsResult} (hws : 0 < ws) (hbs : 0 < args.batch_size)
    (hips : 0 < args.iter_per_step) (hng : 0 < args.num_gpus)
    (h : createAllDags args cfg tc ws N = Except.ok r) :
    r.steps_per_epoch =
      ((N / (args.batch_size * args.iter_per_step * args.num_gpus) :
        Nat) : Int) ∧
    (N < args.batch_size * args.iter_per_step * args.num_gpus →
      r.steps_per_epoch = 0) ∧
    r.dataLayerTrain.num_workers = max ((tc / ws : Nat) : Int) 1 ∧
    1 ≤ r.dataLayerTrain.num_workers ∧
    (∀ (a : Args) (fk : Option String) (t : MainTrace),
      (mainModel a cfg tc ws fk N).2 = Except.ok t →
      t.lrTotalSteps = a.num_epochs * t.stepsPerEpoch) := by
  obtain ⟨p, hp, hr⟩ := createAllDags_ok h
  subst hr
  obtain ⟨vocab, sr, q1, adl, tdp, q2, edp, preK, preD, feat, je, jeD, jas,
    jasL, lastE, filt, vocabL, sp, h1, h2, h3, h4, h5, h6, h7, h8, h9,
    h10, h11, h12, h13, h14, h15, h16, h17, h18, hpeq⟩ := parseCfg_ok_inv hp
  subst hpeq
  obtain ⟨-, hq1⟩ := pyDiv_ok h3
  obtain ⟨-, hq2⟩ := pyDiv_ok h6
  subst hq1
  subst hq2
  have hsteps : (assembleDags args
      { vocab := vocab, sample_rate := sr,
        cpu_per_traindl :=
          max (pyTrunc ⟨(tc : Int), (ws : Int)⟩) 1,
        train_dl_params := tdp, eval_dl_params := edp,
        steps_per_epoch := pyTrunc ⟨(N : Int),
          ((args.batch_size * args.iter_per_step * args.num_gpus : Nat) :
            Int)⟩,
        preprocKwargs := preD, features := feat, encoderKwargs := jeD,
        filters := filt, vocabLen := vocabL.length,
        spectrAug := sp }).steps_per_epoch =
      ((N / (args.batch_size * args.iter_per_step * args.num_gpus) :
        Nat) : Int) := pyTrunc_natCast _ _
  refine ⟨hsteps, ?_, ?_, ?_, ?_⟩
  · intro hlt
    rw [hsteps, Nat.div_eq_of_lt hlt]
    rfl
  · exact congrArg (fun z => max z 1) (pyTrunc_natCast tc ws)
  · exact le_max_right _ 1
  · intro a fk t hmt
    unfold mainModel at hmt
    split at hmt
    · cases hmt
    · rename_i args' hpa
      dsimp only at hmt
      split at hmt
      · cases hmt
      · rename_i r' hca
        cases hmt
        obtain ⟨ha, -⟩ := parse_args_ok hpa
        subst ha
        rfl

/-- Witness for C10: on the fixture numbers (N = 100, batch 32,
1 iteration per step, 1 GPU, 8 CPUs, world size 1) there are 3 steps
per epoch and 8 ≥ 1 data-loader workers, and the learning-rate policy
of a 2-epoch run totals 6 steps. -/
theorem claim_C10_witness :
    (assembleDags argsNE pEx).steps_per_epoch = 3 ∧
    (assembleDags argsNE pEx).dataLayerTrain.num_workers = 8 ∧
    1 ≤ (assembleDags argsNE pEx).dataLayerTrain.num_workers ∧
    (mainModel argsNE cfgEx 8 1 Option.none 100).2.map
      (fun t => t.lrTotalSteps) = Except.ok 6 := by
  have h : createAllDags argsNE cfgEx 8 1 100 =
      Except.ok (assembleDags argsNE pEx) := by rfl
  have hc := claim_C10 (by decide) (by decide) (by decide) (by decide) h
  refine ⟨hc.1.trans (by decide), hc.2.2.1.trans (by decide), hc.2.2.2.1, ?_⟩
  have hmt : (mainModel argsNE cfgEx 8 1 Option.none 100).2 =
      Except.ok { stepsPerEpoch := 3,
                  lrTotalSteps := 6,
                  optimizerEpochs := 2,
                  callbacks := (assembleDags argsNE pEx).callbacks,
                  trainDag := (assembleDags argsNE pEx).trainDag } := by rfl
  have := hc.2.2.2.2 argsNE Option.none _ hmt
  rw [hmt]
  rfl

end QuartzNet
